import Mathlib

/-!
Verification of the FEMB0 diagnostic GUI (`sw/femb0.py`).

The Python program is embedded shallowly:
* numpy arrays become Lean lists (`List ℕ` for unsigned integer data,
  nested lists for 2-D/3-D arrays); shapes are tracked by predicates;
* `np.frombuffer`/`reshape` become explicit `Option`-valued decoders that
  fail exactly when numpy would raise;
* floating point numerics are modelled exactly: means and variances over
  `ℚ`, standard deviations over `ℝ` (`Real.sqrt`), the DFT over `ℂ`;
* the Qt widget state touched by the claims (stored sample arrays, each
  view's derived arrays, the redraw counter, button labels, the polling
  timer) is collected into explicit state records, and the slot methods
  become pure state transformers.
-/

namespace Femb0

/-! ### numpy primitives -/

/-- `np.mean` of a 1-D integer array, exactly over `ℚ`
(`np.mean(samples, axis=1)` applies this to each row). -/
def np_mean (xs : List ℕ) : ℚ := (xs.sum : ℚ) / xs.length

/-- The population variance (`ddof = 0`) that `np.std` takes the square
root of: `mean(abs(x - x.mean())**2)`. -/
def np_var (xs : List ℕ) : ℚ :=
  ((xs.map (fun x : ℕ => ((x : ℚ) - np_mean xs) ^ 2)).sum) / xs.length

/-- `np.std` of a 1-D integer array: square root of the population
variance. -/
noncomputable def np_std (xs : List ℕ) : ℝ := Real.sqrt ((np_var xs : ℚ) : ℝ)

/-- One bin of `np.histogram`: values `x` with `lo ≤ x < hi`, except that
the rightmost bin also includes its right edge. -/
def binCount (xs : List ℕ) (lo hi : ℕ) (lastBin : Bool) : ℕ :=
  xs.countP (fun x => decide (lo ≤ x) &&
    (if lastBin then decide (x ≤ hi) else decide (x < hi)))

/-- `np.histogram(xs, bins=edges)` for a monotone integer edge list:
`edges.length - 1` bins, bin `j` spanning `[edges[j], edges[j+1])`, the
last bin closed on the right. -/
def np_histogram (xs : List ℕ) (edges : List ℕ) : List ℕ :=
  (List.range (edges.length - 1)).map (fun j =>
    binCount xs (edges.getD j 0) (edges.getD (j + 1) 0)
      (decide (j = edges.length - 2)))

/-- Little-endian 16-bit words of a byte list (`np.frombuffer(..., dtype=np.uint16)`
keeps `len/2` whole words). -/
def chunk16 : List ℕ → List ℕ
  | b0 :: b1 :: rest => (b0 + 256 * b1) :: chunk16 rest
  | _ => []

/-- Little-endian 64-bit words of a byte list. -/
def chunk64 : List ℕ → List ℕ
  | b0 :: b1 :: b2 :: b3 :: b4 :: b5 :: b6 :: b7 :: rest =>
      (b0 + 256 * (b1 + 256 * (b2 + 256 * (b3 + 256 *
        (b4 + 256 * (b5 + 256 * (b6 + 256 * b7))))))) :: chunk64 rest
  | _ => []

/-- `np.frombuffer(bs, dtype=np.uint16)`: fails (ValueError) unless the
byte length is a multiple of the 2-byte item size. -/
def np_frombuffer_u16 (bs : List ℕ) : Option (List ℕ) :=
  if bs.length % 2 = 0 then some (chunk16 bs) else none

/-- `np.frombuffer(bs, dtype=np.uint64)`: fails unless the byte length is
a multiple of the 8-byte item size. -/
def np_frombuffer_u64 (bs : List ℕ) : Option (List ℕ) :=
  if bs.length % 8 = 0 then some (chunk64 bs) else none

/-- `v.reshape((4, 128, num))` in C order: fails (ValueError) unless the
element count is exactly `4*128*num`; row `(f, c)` is the slice of length
`num` starting at `(f*128 + c)*num`. -/
def np_reshape_4_128 (v : List ℕ) (num : ℕ) : Option (List (List (List ℕ))) :=
  if v.length = 4 * 128 * num then
    some ((List.range 4).map (fun f => (List.range 128).map (fun c =>
      (v.drop ((f * 128 + c) * num)).take num)))
  else none

/-- `v.reshape((2, num))` in C order. -/
def np_reshape_2 (v : List ℕ) (num : ℕ) : Option (List (List ℕ)) :=
  if v.length = 2 * num then
    some ((List.range 2).map (fun r => (v.drop (r * num)).take num))
  else none

/-- The sample interval `320e-9` seconds, exactly. -/
def np_d : ℚ := 320 / 1000000000

/-- `np.fft.fftfreq(N, d)`: index `k` carries frequency `k/(d*N)` for the
first `⌈N/2⌉` indices (`k ≤ (N-1)//2`, equivalently `2*k < N` on `k < N`)
and `(k-N)/(d*N)` for the rest. -/
def np_fftfreq (N : ℕ) (k : Fin N) : ℚ :=
  if 2 * (k : ℕ) < N then (k : ℚ) / (np_d * N)
  else ((k : ℚ) - N) / (np_d * N)

/-- `np.argsort(key)`: the permutation of indices sorting the keys in
nondecreasing order (the keys used here are pairwise distinct, so the
sorting permutation is unique and the sorting algorithm is irrelevant). -/
def np_argsort (N : ℕ) (key : Fin N → ℚ) : List (Fin N) :=
  List.insertionSort (fun i j => key i ≤ key j) (List.finRange N)

/-- `np.argsort(freq)[len(freq)//2::]`, the index list the spectrum view
uses to pick and order frequency bins. -/
def fft_freq_idx (N : ℕ) : List (Fin N) :=
  (np_argsort N (np_fftfreq N)).drop (N / 2)

/-- Bin `k` of the discrete Fourier transform of `x`
(`np.fft.fft(x)[k]`). -/
noncomputable def dft (x : List ℂ) (k : ℕ) : ℂ :=
  ∑ n ∈ Finset.range x.length,
    x.getD n 0 * Complex.exp (-(2 * Real.pi * Complex.I) * k * n / x.length)

/-- `np.fft.fft(x)` as the list of all `x.length` DFT bins. -/
noncomputable def np_fft (x : List ℂ) : List ℂ :=
  (List.range x.length).map (dft x)

/-! ### Shapes -/

/-- `S` is a `(a, b, n)`-shaped 3-D array. -/
def Shape3 (S : List (List (List ℕ))) (a b n : ℕ) : Prop :=
  S.length = a ∧ ∀ sub ∈ S, sub.length = b ∧ ∀ ch ∈ sub, ch.length = n

/-- `T` is an `(a, n)`-shaped 2-D array. -/
def Shape2 (T : List (List ℕ)) (a n : ℕ) : Prop :=
  T.length = a ∧ ∀ r ∈ T, r.length = n

instance (S : List (List (List ℕ))) (a b n : ℕ) : Decidable (Shape3 S a b n) := by
  unfold Shape3; infer_instance

instance (T : List (List ℕ)) (a n : ℕ) : Decidable (Shape2 T a n) := by
  unfold Shape2; infer_instance

/-! ### Display views

Each view's `load_data(self, timestamps, samples)` mutates the view's
derived arrays; here it is the pure function from the two arrays to the
new derived state.  All three views first select sub-unit 0
(`samples = samples[0]`). -/

namespace Hist2DView

/-- `Hist2DView.load_data`: per channel `i` in `np.arange(128)`,
`np.histogram(samples[i], bins=self.samples)` with
`self.samples = np.arange(16385)`; the rows are collected into a counts
matrix. -/
def load_data (timestamps : List (List ℕ)) (samples : List (List (List ℕ))) :
    List (List ℕ) :=
  let sub0 := samples.getD 0 []
  (List.range 128).map (fun i => np_histogram (sub0.getD i []) (List.range 16385))

end Hist2DView

namespace MeanRMSView

/-- `MeanRMSView.load_data`: `self.rms = np.std(samples, axis=1)` and
`self.mean = np.mean(samples, axis=1)` on the 128-row sub-unit-0 matrix;
returned as `(mean, rms)`. -/
noncomputable def load_data (timestamps : List (List ℕ))
    (samples : List (List (List ℕ))) : List ℚ × List ℝ :=
  let sub0 := samples.getD 0 []
  (sub0.map np_mean, sub0.map np_std)

end MeanRMSView

namespace FFTView

/-- `FFTView.load_data`: recompute `freq = np.fft.fftfreq(len(samples[0]), 320e-9)`,
keep `freq_idx = np.argsort(freq)[len(freq)//2::]`, set
`self.freq = freq[freq_idx]`, and per channel `i` set row `i` of `self.fft`
to `np.square(np.abs(np.fft.fft(samples[i])[freq_idx]))`; returned as
`(freq, fft)`. -/
noncomputable def load_data (timestamps : List (List ℕ))
    (samples : List (List (List ℕ))) : List ℚ × List (List ℝ) :=
  let sub0 := samples.getD 0 []
  let N := (sub0.getD 0 []).length
  let idx := fft_freq_idx N
  (idx.map (np_fftfreq N),
   (List.range 128).map (fun i =>
     idx.map (fun k : Fin N =>
       Complex.abs ((np_fft ((sub0.getD i []).map
         (fun v : ℕ => (v : ℂ)))).getD (k : ℕ) 0) ^ 2)))

end FFTView

/-! ### The orchestrating window: acquisition -/

/-- The fields of the `ReadDaqSpy.DeframedDaqSpy` reply that
`acquire_data` reads: the success flag, the reported sample count and the
two opaque byte payloads. -/
structure Reply where
  success : Bool
  num_samples : ℕ
  deframed_samples : List ℕ
  deframed_timestamps : List ℕ
  deriving DecidableEq

/-- Line 309: `np.frombuffer(rep.deframed_samples, dtype=np.uint16).reshape((4,128,num))`. -/
def decode_samples (rep : Reply) : Option (List (List (List ℕ))) :=
  (np_frombuffer_u16 rep.deframed_samples).bind
    (fun v => np_reshape_4_128 v rep.num_samples)

/-- Line 310: `np.frombuffer(rep.deframed_timestamps, dtype=np.uint64).reshape((2,num))`. -/
def decode_timestamps (rep : Reply) : Option (List (List ℕ)) :=
  (np_frombuffer_u64 rep.deframed_timestamps).bind
    (fun v => np_reshape_2 v rep.num_samples)

/-- The window state the acquisition claims are about: the stored arrays,
each view's derived arrays, and a counter of completed redraw passes
(`self.plot()` calls). -/
structure GuiState where
  samples : Option (List (List (List ℕ)))
  timestamps : Option (List (List ℕ))
  counts : List (List ℕ)
  mean : List ℚ
  rms : List ℝ
  freq : List ℚ
  fft : List (List ℝ)
  redraws : ℕ

/-- The view state built in the `__init__` methods: `self.samples` and
`self.timestamps` do not exist yet, the histogram counts are
`np.zeros_like(meshgrid(chan, samples))` (shape `(16385, 128)`), mean and
rms are 128 zeros, the frequency axis is precomputed for 2184 timesteps,
and the fft matrix is all ones (shape `(len(freq), 128)`). -/
noncomputable def init_state : GuiState where
  samples := none
  timestamps := none
  counts := List.replicate 16385 (List.replicate 128 0)
  mean := List.replicate 128 0
  rms := List.replicate 128 0
  freq := (fft_freq_idx 2184).map (np_fftfreq 2184)
  fft := List.replicate ((fft_freq_idx 2184).length) (List.replicate 128 (1 : ℝ))
  redraws := 0

/-- `acquire_data` (lines 297–315) as a state transformer.  The reply's
success flag is printed but never branched on.  A decode failure raises
out of the slot, leaving whatever was already assigned (`self.samples`
is assigned before `self.timestamps`).  On full decode the views load in
list order (histogram, mean/RMS, spectrum): the spectrum view computes
`np.fft.fftfreq(len(samples[0]), 320e-9)`, which raises
`ZeroDivisionError` exactly when that length — channel 0's timestep
count — is zero; in that case the histogram and mean/RMS state is
already overwritten but `freq`/`fft` stay unchanged and `self.plot()`
is never reached.  Otherwise all three views load and one redraw pass
(`self.plot()`) runs.  (At zero timesteps `np.mean`/`np.std` return nan
with a warning rather than raising; over `ℚ` the division by zero gives
0 — no claim depends on these values.) -/
noncomputable def acquire_data (rep : Reply) (st : GuiState) : GuiState :=
  match decode_samples rep with
  | none => st
  | some S =>
    match decode_timestamps rep with
    | none => { st with samples := some S }
    | some T =>
      if ((S.getD 0 []).getD 0 []).length = 0 then
        { st with
          samples := some S
          timestamps := some T
          counts := Hist2DView.load_data T S
          mean := (MeanRMSView.load_data T S).1
          rms := (MeanRMSView.load_data T S).2 }
      else
        { st with
          samples := some S
          timestamps := some T
          counts := Hist2DView.load_data T S
          mean := (MeanRMSView.load_data T S).1
          rms := (MeanRMSView.load_data T S).2
          freq := (FFTView.load_data T S).1
          fft := (FFTView.load_data T S).2
          redraws := st.redraws + 1 }

/-! ### The orchestrating window: continuous mode -/

/-- The state of the Continuous/Stop toggle: the button label, whether the
`QTimer` is running, and its interval in milliseconds. -/
structure ContinuousState where
  label : String
  timerActive : Bool
  timerInterval : ℕ
  deriving DecidableEq

/-- `__init__` (lines 267–274): button labelled `Continuous`, timer
created but not started. -/
def continuousInit : ContinuousState :=
  { label := "Continuous", timerActive := false, timerInterval := 0 }

/-- `toggle_continuous` (lines 286–294): if the button says `Continuous`,
relabel it `Stop` and start the timer at 500 ms; otherwise relabel it
`Continuous` and stop the timer. -/
def toggle_continuous (s : ContinuousState) : ContinuousState :=
  if s.label = "Continuous" then
    { s with label := "Stop", timerActive := true, timerInterval := 500 }
  else
    { s with label := "Continuous", timerActive := false }

/-- The `Idle` state of the spec's state machine: button offers
`Continuous`, timer not running. -/
def Idle (s : ContinuousState) : Prop :=
  s.label = "Continuous" ∧ s.timerActive = false

/-- The `ContinuousPolling` state: button offers `Stop`, timer running at
500 ms. -/
def ContinuousPolling (s : ContinuousState) : Prop :=
  s.label = "Stop" ∧ s.timerActive = true ∧ s.timerInterval = 500

instance (s : ContinuousState) : Decidable (Idle s) := by
  unfold Idle; infer_instance

instance (s : ContinuousState) : Decidable (ContinuousPolling s) := by
  unfold ContinuousPolling; infer_instance

/-! ### The orchestrating window: configuration -/

/-- A parsed `femb_configs[i]` JSON object; `none` models a missing key
(`fconfig['test_cap']` raising `KeyError`).  The tuning values themselves
are opaque to the client and modelled as numbers. -/
structure RawFembConfig where
  test_cap : Option ℕ
  gain : Option ℕ
  peak_time : Option ℕ
  baseline : Option ℕ
  pulse_dac : Option ℕ
  leak : Option ℕ
  leak_10x : Option ℕ
  ac_couple : Option ℕ
  buffer : Option ℕ
  strobe_skip : Option ℕ
  strobe_delay : Option ℕ
  strobe_length : Option ℕ
  deriving DecidableEq

/-- The parsed configuration JSON object; `none` models a missing key. -/
instance : Inhabited RawFembConfig :=
  ⟨⟨none, none, none, none, none, none, none, none, none, none, none, none⟩⟩

structure RawConfig where
  cold : Option Bool
  enabled_fembs : Option (List Bool)
  femb_configs : Option (List RawFembConfig)
  deriving DecidableEq

/-- One per-sub-unit record of the `ConfigureWIB` protobuf message. -/
structure FEMBConf where
  enabled : Bool
  test_cap : ℕ
  gain : ℕ
  peak_time : ℕ
  baseline : ℕ
  pulse_dac : ℕ
  leak : ℕ
  leak_10x : ℕ
  ac_couple : ℕ
  buffer : ℕ
  strobe_skip : ℕ
  strobe_delay : ℕ
  strobe_length : ℕ
  deriving DecidableEq

instance : Inhabited FEMBConf :=
  ⟨⟨false, 0, 0, 0, 0, 0, 0, 0, 0, 0, 0, 0, 0⟩⟩

/-- The `ConfigureWIB` protobuf message built by `configure_wib`. -/
structure ConfigureWIB where
  cold : Bool
  fembs : List FEMBConf
  deriving DecidableEq

/-- The body of one iteration of the `for i in range(4)` loop: look up
`enabled_fembs[i]`, `femb_configs[i]` and the twelve tuning keys; any
missing key or short list raises. -/
def build_femb (cfg : RawConfig) (i : ℕ) : Option FEMBConf :=
  (cfg.enabled_fembs.bind (fun ens => ens[i]?)).bind (fun en =>
    (cfg.femb_configs.bind (fun fcs => fcs[i]?)).bind (fun fc =>
      fc.test_cap.bind (fun v0 =>
      fc.gain.bind (fun v1 =>
      fc.peak_time.bind (fun v2 =>
      fc.baseline.bind (fun v3 =>
      fc.pulse_dac.bind (fun v4 =>
      fc.leak.bind (fun v5 =>
      fc.leak_10x.bind (fun v6 =>
      fc.ac_couple.bind (fun v7 =>
      fc.buffer.bind (fun v8 =>
      fc.strobe_skip.bind (fun v9 =>
      fc.strobe_delay.bind (fun v10 =>
      fc.strobe_length.bind (fun v11 =>
        some ⟨en, v0, v1, v2, v3, v4, v5, v6, v7, v8, v9, v10, v11⟩))))))))))))))

/-- Lines 333–356: build the `ConfigureWIB` request from the parsed
configuration; `req.cold = config['cold']`, then the loop for
`i in range(4)`.  `none` models the uncaught `KeyError`/`IndexError`
raised by any missing piece. -/
def build_req (cfg : RawConfig) : Option ConfigureWIB :=
  cfg.cold.bind (fun c =>
    (build_femb cfg 0).bind (fun f0 =>
    (build_femb cfg 1).bind (fun f1 =>
    (build_femb cfg 2).bind (fun f2 =>
    (build_femb cfg 3).bind (fun f3 =>
      some ⟨c, [f0, f1, f2, f3]⟩)))))

/-- How one `Configure` button press ends: the command was sent and the
slot returned; or the slot returned early from the `except` handler after
reporting the load failure; or an exception escaped the slot (it was not
raised inside the `try`). -/
inductive CfgOutcome
  | okSent
  | abortedCaught
  | crashedUncaught
  deriving DecidableEq

/-- `configure_wib` (lines 322–361): `file` is the result of the guarded
`open`/`json.load` (`none` = missing or unparsable file, caught by the
`except` which reports and returns).  Afterwards the request is built
outside any handler and, if that raised nothing, sent exactly once.
Returns the list of sent `ConfigureWIB` messages and the outcome. -/
def configure_wib (file : Option RawConfig) : List ConfigureWIB × CfgOutcome :=
  match file with
  | none => ([], CfgOutcome.abortedCaught)
  | some cfg =>
    match build_req cfg with
    | none => ([], CfgOutcome.crashedUncaught)
    | some req => ([req], CfgOutcome.okSent)

/-! ### Helper lemmas -/

lemma length_eq_four {α : Type _} :
    ∀ {l : List α}, l.length = 4 → ∃ a b c d, l = [a, b, c, d]
  | [a, b, c, d], _ => ⟨a, b, c, d, rfl⟩
  | [], h => by simp at h
  | [_], h => by simp at h
  | [_, _], h => by simp at h
  | [_, _, _], h => by simp at h
  | _ :: _ :: _ :: _ :: _ :: _, h => by simp at h

/-- All twelve tuning keys are present in a parsed `femb_configs[i]`
object. -/
def RawFembConfig.Complete (fc : RawFembConfig) : Prop :=
  fc.test_cap.isSome = true ∧ fc.gain.isSome = true ∧ fc.peak_time.isSome = true ∧
  fc.baseline.isSome = true ∧ fc.pulse_dac.isSome = true ∧ fc.leak.isSome = true ∧
  fc.leak_10x.isSome = true ∧ fc.ac_couple.isSome = true ∧ fc.buffer.isSome = true ∧
  fc.strobe_skip.isSome = true ∧ fc.strobe_delay.isSome = true ∧
  fc.strobe_length.isSome = true

instance (fc : RawFembConfig) : Decidable fc.Complete := by
  unfold RawFembConfig.Complete; infer_instance

/-- The per-sub-unit record that the loop body assembles from
`enabled_fembs[i]` and a fully populated `femb_configs[i]`. -/
def femb_of (en : Bool) (fc : RawFembConfig) : FEMBConf :=
  ⟨en, fc.test_cap.getD 0, fc.gain.getD 0, fc.peak_time.getD 0,
   fc.baseline.getD 0, fc.pulse_dac.getD 0, fc.leak.getD 0,
   fc.leak_10x.getD 0, fc.ac_couple.getD 0, fc.buffer.getD 0,
   fc.strobe_skip.getD 0, fc.strobe_delay.getD 0, fc.strobe_length.getD 0⟩

lemma build_femb_eq (cfg : RawConfig) (i : ℕ) (ens : List Bool)
    (fcs : List RawFembConfig) (en : Bool) (fc : RawFembConfig)
    (h1 : cfg.enabled_fembs = some ens) (h2 : ens[i]? = some en)
    (h3 : cfg.femb_configs = some fcs) (h4 : fcs[i]? = some fc)
    (hc : fc.Complete) :
    build_femb cfg i = some (femb_of en fc) := by
  obtain ⟨hc0, hc1, hc2, hc3, hc4, hc5, hc6, hc7, hc8, hc9, hc10, hc11⟩ := hc
  obtain ⟨w0, e0⟩ := Option.isSome_iff_exists.mp hc0
  obtain ⟨w1, e1⟩ := Option.isSome_iff_exists.mp hc1
  obtain ⟨w2, e2⟩ := Option.isSome_iff_exists.mp hc2
  obtain ⟨w3, e3⟩ := Option.isSome_iff_exists.mp hc3
  obtain ⟨w4, e4⟩ := Option.isSome_iff_exists.mp hc4
  obtain ⟨w5, e5⟩ := Option.isSome_iff_exists.mp hc5
  obtain ⟨w6, e6⟩ := Option.isSome_iff_exists.mp hc6
  obtain ⟨w7, e7⟩ := Option.isSome_iff_exists.mp hc7
  obtain ⟨w8, e8⟩ := Option.isSome_iff_exists.mp hc8
  obtain ⟨w9, e9⟩ := Option.isSome_iff_exists.mp hc9
  obtain ⟨w10, e10⟩ := Option.isSome_iff_exists.mp hc10
  obtain ⟨w11, e11⟩ := Option.isSome_iff_exists.mp hc11
  unfold build_femb femb_of
  simp only [h1, h2, h3, h4, e0, e1, e2, e3, e4, e5, e6, e7, e8, e9, e10, e11,
    Option.some_bind', Option.getD_some]

lemma chunk16_length : ∀ bs : List ℕ, (chunk16 bs).length = bs.length / 2
  | [] => rfl
  | [_] => by simp [chunk16]
  | _ :: _ :: rest => by
    simp only [chunk16, List.length_cons, chunk16_length rest]
    omega

lemma chunk64_length : ∀ bs : List ℕ, (chunk64 bs).length = bs.length / 8
  | [] => rfl
  | [_] => by simp [chunk64]
  | [_, _] => by simp [chunk64]
  | [_, _, _] => by simp [chunk64]
  | [_, _, _, _] => by simp [chunk64]
  | [_, _, _, _, _] => by simp [chunk64]
  | [_, _, _, _, _, _] => by simp [chunk64]
  | [_, _, _, _, _, _, _] => by simp [chunk64]
  | _ :: _ :: _ :: _ :: _ :: _ :: _ :: _ :: rest => by
    simp only [chunk64, List.length_cons, chunk64_length rest]
    omega

/-- A successful sample decode forces the byte payload length to be
2 bytes times `4*128*N`. -/
lemma decode_samples_length {rep : Reply} {S : List (List (List ℕ))}
    (h : decode_samples rep = some S) :
    rep.deframed_samples.length = 2 * (4 * 128 * rep.num_samples) := by
  unfold decode_samples np_frombuffer_u16 np_reshape_4_128 at h
  by_cases h2 : rep.deframed_samples.length % 2 = 0
  · rw [if_pos h2, Option.some_bind'] at h
    by_cases h3 : (chunk16 rep.deframed_samples).length = 4 * 128 * rep.num_samples
    · rw [chunk16_length] at h3
      omega
    · rw [if_neg h3] at h
      exact Option.noConfusion h
  · rw [if_neg h2] at h
    exact Option.noConfusion h

/-- A successful timestamp decode forces the byte payload length to be
8 bytes times `2*N`. -/
lemma decode_timestamps_length {rep : Reply} {T : List (List ℕ)}
    (h : decode_timestamps rep = some T) :
    rep.deframed_timestamps.length = 8 * (2 * rep.num_samples) := by
  unfold decode_timestamps np_frombuffer_u64 np_reshape_2 at h
  by_cases h2 : rep.deframed_timestamps.length % 8 = 0
  · rw [if_pos h2, Option.some_bind'] at h
    by_cases h3 : (chunk64 rep.deframed_timestamps).length = 2 * rep.num_samples
    · rw [chunk64_length] at h3
      omega
    · rw [if_neg h3] at h
      exact Option.noConfusion h
  · rw [if_neg h2] at h
    exact Option.noConfusion h

lemma getD_range {n j : ℕ} (h : j < n) : (List.range n).getD j 0 = j := by
  rw [List.getD_eq_getElem _ _ (by simpa using h)]
  simp

lemma getD_map_range {α : Type _} (f : ℕ → α) {n c : ℕ} (d : α) (h : c < n) :
    ((List.range n).map f).getD c d = f c := by
  rw [List.getD_eq_getElem _ _ (by simpa using h)]
  simp

lemma getD_mem {α : Type _} {l : List α} {i : ℕ} (d : α) (h : i < l.length) :
    l.getD i d ∈ l := by
  rw [List.getD_eq_getElem _ _ h]
  exact List.getElem_mem h

lemma getD_map {α β : Type _} (f : α → β) (l : List α) (d : β) (d' : α) {c : ℕ}
    (h : c < l.length) :
    (l.map f).getD c d = f (l.getD c d') := by
  rw [List.getD_eq_getElem _ _ (by simpa using h), List.getD_eq_getElem _ _ h]
  simp

/-- On integer edges `0, 1, …, m`, `np.histogram` produces the `m`
unit-width bins `[j, j+1)` (the last one closed). -/
lemma np_histogram_range (xs : List ℕ) (m : ℕ) :
    np_histogram xs (List.range (m + 1)) =
      (List.range m).map (fun j => binCount xs j (j + 1) (decide (j = m - 1))) := by
  unfold np_histogram
  rw [List.length_range, Nat.add_sub_cancel]
  apply List.map_congr_left
  intro j hj
  rw [List.mem_range] at hj
  rw [getD_range (by omega), getD_range (by omega)]
  have h2 : m + 1 - 2 = m - 1 := by omega
  rw [h2]

/-- On values below `m`, the bin predicate of the unit-width bin `j`
holds exactly when `x = j`. -/
lemma binPred_eq (m j x : ℕ) (hj : j < m) (hx : x < m) :
    (decide (j ≤ x) &&
      (if (decide (j = m - 1) : Bool) then decide (x ≤ j + 1) else decide (x < j + 1))) =
      decide (j = x) := by
  by_cases hjm : j = m - 1
  · simp only [hjm, decide_True, if_true, ← Bool.decide_and]
    exact decide_eq_decide.mpr (by omega)
  · simp only [decide_eq_true_eq, hjm, if_false, decide_False, Bool.false_eq_true,
      ← Bool.decide_and]
    exact decide_eq_decide.mpr (by omega)

lemma binCount_eq_countP (xs : List ℕ) (m j : ℕ) (hj : j < m)
    (h : ∀ x ∈ xs, x < m) :
    binCount xs j (j + 1) (decide (j = m - 1)) =
      xs.countP (fun x => decide (j = x)) := by
  unfold binCount
  apply List.countP_congr
  intro x hx
  rw [binPred_eq m j x hj (h x hx)]

lemma sum_map_add {α : Type _} (l : List α) (f g : α → ℕ) :
    (l.map (fun a => f a + g a)).sum = (l.map f).sum + (l.map g).sum := by
  induction l with
  | nil => rfl
  | cons a t ih => simp [ih]; omega

lemma sum_map_range_ite (m x : ℕ) (hx : x < m) :
    ((List.range m).map (fun j => if j = x then 1 else 0)).sum = 1 := by
  induction m with
  | zero => omega
  | succ m ih =>
    rw [List.range_succ, List.map_append, List.sum_append]
    by_cases hxm : x = m
    · subst hxm
      have hz : ((List.range x).map (fun j => if j = x then 1 else 0)).sum = 0 := by
        rw [List.map_congr_left (g := fun _ => (0 : ℕ))
          (fun j hj => by rw [List.mem_range] at hj; simp; omega)]
        simp
      simp [hz]
    · have hx2 : x < m := by omega
      have hmx : ¬m = x := by omega
      simp [ih hx2, hmx]

/-- Each value below `m` lands in exactly one of the `m` unit-width bins,
so the bin counts add up to the number of values. -/
lemma countP_bins_sum (xs : List ℕ) (m : ℕ) (h : ∀ x ∈ xs, x < m) :
    ((List.range m).map (fun j => xs.countP (fun x => decide (j = x)))).sum = xs.length := by
  induction xs with
  | nil => simp
  | cons x t ih =>
    have hx : x < m := h x (by simp)
    have ht : ∀ y ∈ t, y < m := fun y hy => h y (by simp [hy])
    simp only [List.countP_cons, decide_eq_true_eq]
    rw [sum_map_add, ih ht]
    have := sum_map_range_ite m x hx
    simp only [List.length_cons]
    omega

/-- The histogram of values below 16384 over the `np.arange(16385)` edges
drops nothing: the counts sum to the number of samples. -/
lemma hist_row_sum (xs : List ℕ) (h : ∀ x ∈ xs, x < 16384) :
    (np_histogram xs (List.range 16385)).sum = xs.length := by
  have h1 : np_histogram xs (List.range 16385) =
      (List.range 16384).map (fun j => binCount xs j (j + 1) (decide (j = 16384 - 1))) :=
    np_histogram_range xs 16384
  rw [h1, List.map_congr_left (fun j hj =>
    binCount_eq_countP xs 16384 j (List.mem_range.mp hj) h)]
  exact countP_bins_sum xs 16384 h

/-! ### Claims C5 and C2 -/

/-- The row of the counts matrix for channel `c` is the histogram of that
channel's sub-unit-0 samples. -/
lemma hist2d_row (T : List (List ℕ)) (S : List (List (List ℕ))) {c : ℕ}
    (hc : c < 128) :
    (Hist2DView.load_data T S).getD c [] =
      np_histogram ((S.getD 0 []).getD c []) (List.range 16385) := by
  unfold Hist2DView.load_data
  exact getD_map_range _ _ hc

/-- Claim C5 (confirmed): when every sub-unit-0 value lies in
`[0, 16384)`, the counts of each channel's histogram row sum to the
timestep count `N` — no samples are dropped. -/
theorem hist2d_counts_preserved (N : ℕ) (S : List (List (List ℕ)))
    (T : List (List ℕ)) (hS : Shape3 S 4 128 N) (hT : Shape2 T 2 N)
    (hv : ∀ ch ∈ S.getD 0 [], ∀ x ∈ ch, x < 16384) :
    ∀ c, c < 128 → ((Hist2DView.load_data T S).getD c []).sum = N := by
  intro c hc
  have hsub0mem : S.getD 0 [] ∈ S := getD_mem [] (by rw [hS.1]; omega)
  have hsub0 := hS.2 (S.getD 0 []) hsub0mem
  have hchmem : (S.getD 0 []).getD c [] ∈ S.getD 0 [] :=
    getD_mem [] (by rw [hsub0.1]; exact hc)
  have hchlen : ((S.getD 0 []).getD c []).length = N := hsub0.2 _ hchmem
  rw [hist2d_row T S hc, hist_row_sum _ (hv _ hchmem), hchlen]

/-- A concrete `(4,128,2)` sample array (all channels `[5, 7]`) and
`(2,2)` timestamp array. -/
def histSamples2 : List (List (List ℕ)) := List.replicate 4 (List.replicate 128 [5, 7])

def histTimes2 : List (List ℕ) := [[0, 0], [0, 0]]

/-- A `(4,128,1)` sample array whose channels are all the constant 7. -/
def mrSamples : List (List (List ℕ)) := List.replicate 4 (List.replicate 128 [7])

def mrTimes : List (List ℕ) := [[0], [0]]

set_option maxRecDepth 40000 in
/-- Witness for C5 at the concrete `(4,128,2)` array. -/
theorem hist2d_counts_preserved_witness :
    Shape3 histSamples2 4 128 2 ∧
    ((Hist2DView.load_data histTimes2 histSamples2).getD 0 []).sum = 2 :=
  ⟨by decide,
   hist2d_counts_preserved 2 histSamples2 histTimes2 (by decide) (by decide)
     (by decide) 0 (by decide)⟩

/-- The binning described by the claim's words (not the source): 16384
equal-width bins spanning the full 16-bit unsigned range `[0, 65536)`,
each of width 4. -/
def hist2d_load_spec16bit (samples : List (List (List ℕ))) : List (List ℕ) :=
  let sub0 := samples.getD 0 []
  (List.range 128).map (fun i =>
    (List.range 16384).map (fun j =>
      (sub0.getD i []).countP (fun x => decide (4 * j ≤ x) && decide (x < 4 * (j + 1)))))

/-- A `(4,128,1)` sample array whose single value is 1. -/
def histSamples1 : List (List (List ℕ)) := List.replicate 4 (List.replicate 128 [1])

def histTimes1 : List (List ℕ) := [[0], [0]]

/-- Counterexample to C2 as stated: the histogram view's bins do not span
`[0, 65536)`.  On a channel holding the single value 1, the code's bin 1
counts it (unit-width bins with edges `0,1,…,16384`), whereas binning into
16384 equal-width bins over `[0, 65536)` would put it in bin 0 and leave
bin 1 empty. -/
theorem hist2d_not_16bit_range :
    ((Hist2DView.load_data histTimes1 histSamples1).getD 0 []).getD 1 0 = 1 ∧
    ((hist2d_load_spec16bit histSamples1).getD 0 []).getD 1 0 = 0 ∧
    Hist2DView.load_data histTimes1 histSamples1 ≠ hist2d_load_spec16bit histSamples1 := by
  have hcode : ((Hist2DView.load_data histTimes1 histSamples1).getD 0 []).getD 1 0 = 1 := by
    rw [hist2d_row histTimes1 histSamples1 (by omega)]
    have h1 : np_histogram ((histSamples1.getD 0 []).getD 0 []) (List.range 16385) =
        (List.range 16384).map
          (fun j => binCount ((histSamples1.getD 0 []).getD 0 []) j (j + 1)
            (decide (j = 16384 - 1))) :=
      np_histogram_range _ 16384
    rw [h1, getD_map_range _ _ (by omega)]
    decide
  have hspec : ((hist2d_load_spec16bit histSamples1).getD 0 []).getD 1 0 = 0 := by
    simp only [hist2d_load_spec16bit]
    rw [getD_map_range _ _ (show (0 : ℕ) < 128 by omega),
      getD_map_range _ _ (show (1 : ℕ) < 16384 by omega)]
    decide
  refine ⟨hcode, hspec, ?_⟩
  intro h
  have h2 := congrArg (fun L => (L.getD 0 []).getD 1 0) h
  simp only at h2
  rw [hcode, hspec] at h2
  exact one_ne_zero h2

/-- Claim C2 (corrected): `Hist2DView.load_data` yields a 128 × 16384
counts matrix in which bin `j` of a channel counts the values `x` with
`j ≤ x < j + 1` (the final bin `j = 16383` also counting `x = 16384`):
16384 unit-width bins whose edges are `0, 1, …, 16384`, spanning the
14-bit range `[0, 16384]` rather than the 16-bit range `[0, 65536)`. -/
theorem hist2d_bins_unit_width (N : ℕ) (S : List (List (List ℕ)))
    (T : List (List ℕ)) (hS : Shape3 S 4 128 N) (hT : Shape2 T 2 N) :
    (Hist2DView.load_data T S).length = 128 ∧
    ∀ c, c < 128 →
      ((Hist2DView.load_data T S).getD c []).length = 16384 ∧
      ∀ j, j < 16384 →
        ((Hist2DView.load_data T S).getD c []).getD j 0 =
          ((S.getD 0 []).getD c []).countP
            (fun x => decide (j ≤ x) &&
              (if j = 16383 then decide (x ≤ 16384) else decide (x < j + 1))) := by
  refine ⟨by simp [Hist2DView.load_data], ?_⟩
  intro c hc
  rw [hist2d_row T S hc]
  have hrange : np_histogram ((S.getD 0 []).getD c []) (List.range 16385) =
      (List.range 16384).map
        (fun j => binCount ((S.getD 0 []).getD c []) j (j + 1) (decide (j = 16384 - 1))) :=
    np_histogram_range _ 16384
  rw [hrange]
  refine ⟨by simp, ?_⟩
  intro j hj
  rw [getD_map_range _ _ hj]
  unfold binCount
  apply List.countP_congr
  intro x hx
  by_cases hjm : j = 16383
  · simp [hjm]
  · simp [hjm]

set_option maxRecDepth 40000 in
/-- Witness for C2's amended claim at the concrete `(4,128,2)` array:
shape of the counts matrix and the unit-width description of bin 0. -/
theorem hist2d_bins_unit_width_witness :
    Shape3 histSamples2 4 128 2 ∧
    (Hist2DView.load_data histTimes2 histSamples2).length = 128 ∧
    ((Hist2DView.load_data histTimes2 histSamples2).getD 0 []).length = 16384 :=
  ⟨by decide,
   (hist2d_bins_unit_width 2 histSamples2 histTimes2 (by decide) (by decide)).1,
   ((hist2d_bins_unit_width 2 histSamples2 histTimes2 (by decide) (by decide)).2 0
     (by omega)).1⟩

/-! ### The spectrum view's frequency axis -/

lemma np_d_pos : 0 < np_d := by norm_num [np_d]

lemma dN_pos {N : ℕ} (hN : 1 ≤ N) : 0 < np_d * (N : ℚ) :=
  mul_pos np_d_pos (by exact_mod_cast hN)

lemma mem_take_finRange {N P : ℕ} {i : Fin N}
    (h : i ∈ (List.finRange N).take P) : (i : ℕ) < P := by
  obtain ⟨m, hm, hi⟩ := List.getElem_of_mem h
  have hm2 : m < P := by
    rw [List.length_take, List.length_finRange] at hm
    omega
  rw [List.getElem_take, List.getElem_finRange] at hi
  have := congrArg Fin.val hi
  simp at this
  omega

lemma mem_drop_finRange {N P : ℕ} {i : Fin N}
    (h : i ∈ (List.finRange N).drop P) : P ≤ (i : ℕ) := by
  obtain ⟨m, hm, hi⟩ := List.getElem_of_mem h
  rw [List.getElem_drop, List.getElem_finRange] at hi
  have := congrArg Fin.val hi
  simp at this
  omega

lemma fftfreq_nonneg {N : ℕ} (hN : 1 ≤ N) {k : Fin N} (h : 2 * (k : ℕ) < N) :
    0 ≤ np_fftfreq N k := by
  unfold np_fftfreq
  rw [if_pos h]
  exact div_nonneg (by positivity) (le_of_lt (dN_pos hN))

lemma fftfreq_neg {N : ℕ} (hN : 1 ≤ N) {k : Fin N} (h : ¬2 * (k : ℕ) < N) :
    np_fftfreq N k < 0 := by
  unfold np_fftfreq
  rw [if_neg h]
  apply div_neg_of_neg_of_pos _ (dN_pos hN)
  have : ((k : ℕ) : ℚ) < (N : ℚ) := by exact_mod_cast k.isLt
  linarith

/-- The keys `np.fft.fftfreq` assigns to distinct indices are distinct. -/
lemma fftfreq_injective (N : ℕ) (hN : 1 ≤ N) :
    Function.Injective (np_fftfreq N) := by
  intro a b hab
  have hdN := dN_pos hN
  have hne : np_d * (N : ℚ) ≠ 0 := ne_of_gt hdN
  by_cases ha : 2 * (a : ℕ) < N <;> by_cases hb : 2 * (b : ℕ) < N
  · unfold np_fftfreq at hab
    rw [if_pos ha, if_pos hb, div_eq_div_iff hne hne] at hab
    have : ((a : ℕ) : ℚ) = ((b : ℕ) : ℚ) := mul_right_cancel₀ hne hab
    exact Fin.ext (by exact_mod_cast this)
  · have h1 := fftfreq_nonneg hN ha
    have h2 := fftfreq_neg hN hb
    rw [hab] at h1
    linarith
  · have h1 := fftfreq_nonneg hN hb
    have h2 := fftfreq_neg hN ha
    rw [hab] at h2
    linarith
  · unfold np_fftfreq at hab
    rw [if_neg ha, if_neg hb, div_eq_div_iff hne hne] at hab
    have h3 : ((a : ℕ) : ℚ) - N = ((b : ℕ) : ℚ) - N := mul_right_cancel₀ hne hab
    have : ((a : ℕ) : ℚ) = ((b : ℕ) : ℚ) := by linarith
    exact Fin.ext (by exact_mod_cast this)

/-- `np.argsort` on the `fftfreq` keys puts the second half of the index
range (the negative frequencies, in order) before the first half (the
nonnegative frequencies, in order). -/
lemma argsort_fftfreq_eq (N : ℕ) (hN : 1 ≤ N) :
    np_argsort N (np_fftfreq N) =
      (List.finRange N).drop (N - N / 2) ++ (List.finRange N).take (N - N / 2) := by
  unfold np_argsort
  set r : Fin N → Fin N → Prop := fun i j => np_fftfreq N i ≤ np_fftfreq N j with hr
  haveI : IsTotal (Fin N) r := ⟨fun a b => le_total _ _⟩
  haveI : IsTrans (Fin N) r := ⟨fun a b c hab hbc => le_trans hab hbc⟩
  haveI : IsAntisymm (Fin N) r :=
    ⟨fun a b h1 h2 => fftfreq_injective N hN (le_antisymm h1 h2)⟩
  refine List.eq_of_perm_of_sorted ?_ (List.sorted_insertionSort r _) ?_
  · refine (List.perm_insertionSort r _).trans ?_
    conv_lhs => rw [← List.take_append_drop (N - N / 2) (List.finRange N)]
    exact List.perm_append_comm
  · apply List.pairwise_append.mpr
    refine ⟨?_, ?_, ?_⟩
    · have hpw : ((List.finRange N).drop (N - N / 2)).Pairwise (· < ·) :=
        (List.pairwise_lt_finRange N).sublist (List.drop_sublist _ _)
      refine hpw.imp_of_mem (fun {a b} ha hb hab => ?_)
      have hPa := mem_drop_finRange ha
      have hPb := mem_drop_finRange hb
      have h2a : ¬2 * (a : ℕ) < N := by omega
      have h2b : ¬2 * (b : ℕ) < N := by omega
      show np_fftfreq N a ≤ np_fftfreq N b
      unfold np_fftfreq
      rw [if_neg h2a, if_neg h2b]
      apply (div_le_div_right (dN_pos hN)).mpr
      have : ((a : ℕ) : ℚ) ≤ ((b : ℕ) : ℚ) := by exact_mod_cast le_of_lt hab
      linarith
    · have hpw : ((List.finRange N).take (N - N / 2)).Pairwise (· < ·) :=
        (List.pairwise_lt_finRange N).sublist (List.take_sublist _ _)
      refine hpw.imp_of_mem (fun {a b} ha hb hab => ?_)
      have hPa := mem_take_finRange ha
      have hPb := mem_take_finRange hb
      have h2a : 2 * (a : ℕ) < N := by omega
      have h2b : 2 * (b : ℕ) < N := by omega
      show np_fftfreq N a ≤ np_fftfreq N b
      unfold np_fftfreq
      rw [if_pos h2a, if_pos h2b]
      apply (div_le_div_right (dN_pos hN)).mpr
      exact_mod_cast le_of_lt hab
    · intro a ha b hb
      have hPa := mem_drop_finRange ha
      have hPb := mem_take_finRange hb
      have h2a : ¬2 * (a : ℕ) < N := by omega
      have h2b : 2 * (b : ℕ) < N := by omega
      show np_fftfreq N a ≤ np_fftfreq N b
      exact le_of_lt (lt_of_lt_of_le (fftfreq_neg hN h2a) (fftfreq_nonneg hN h2b))

/-- `np.argsort(freq)[N//2::]` is exactly the first `⌈N/2⌉` indices in
order: the nonnegative-frequency bins. -/
lemma fft_freq_idx_eq (N : ℕ) (hN : 1 ≤ N) :
    fft_freq_idx N = (List.finRange N).take (N - N / 2) := by
  unfold fft_freq_idx
  rw [argsort_fftfreq_eq N hN]
  exact List.drop_left' (by rw [List.length_drop, List.length_finRange]; omega)

lemma freq_axis_length (N : ℕ) (hN : 1 ≤ N) :
    ((fft_freq_idx N).map (np_fftfreq N)).length = N - N / 2 := by
  rw [fft_freq_idx_eq N hN, List.length_map, List.length_take, List.length_finRange]
  omega

lemma fft_freq_idx_head (N : ℕ) (hN : 1 ≤ N) (d : Fin N) :
    (fft_freq_idx N).getD 0 d = ⟨0, by omega⟩ := by
  rw [fft_freq_idx_eq N hN]
  rw [List.getD_eq_getElem _ _ (by rw [List.length_take, List.length_finRange]; omega)]
  rw [List.getElem_take, List.getElem_finRange]
  exact Fin.ext (by simp)

lemma fft_freq_idx_head_val (N : ℕ) (hN : 1 ≤ N) (d : Fin N) :
    (((fft_freq_idx N).getD 0 d : Fin N) : ℕ) = 0 := by
  rw [fft_freq_idx_head N hN d]

lemma fftfreq_zero (N : ℕ) (hN : 1 ≤ N) :
    np_fftfreq N ⟨0, by omega⟩ = 0 := by
  unfold np_fftfreq
  rw [if_pos (by simpa using hN)]
  simp

lemma freq_axis_head (N : ℕ) (hN : 1 ≤ N) :
    ((fft_freq_idx N).map (np_fftfreq N)).getD 0 0 = 0 := by
  have hlen : 0 < (fft_freq_idx N).length := by
    rw [fft_freq_idx_eq N hN, List.length_take, List.length_finRange]
    omega
  rw [getD_map (np_fftfreq N) _ 0 ⟨0, by omega⟩ hlen, fft_freq_idx_head N hN]
  exact fftfreq_zero N hN

lemma freq_axis_strict (N : ℕ) (hN : 1 ≤ N) :
    ((fft_freq_idx N).map (np_fftfreq N)).Pairwise (· < ·) := by
  rw [fft_freq_idx_eq N hN, List.pairwise_map]
  have hpw : ((List.finRange N).take (N - N / 2)).Pairwise (· < ·) :=
    (List.pairwise_lt_finRange N).sublist (List.take_sublist _ _)
  refine hpw.imp_of_mem (fun {a b} ha hb hab => ?_)
  have hPa := mem_take_finRange ha
  have hPb := mem_take_finRange hb
  have h2a : 2 * (a : ℕ) < N := by omega
  have h2b : 2 * (b : ℕ) < N := by omega
  unfold np_fftfreq
  rw [if_pos h2a, if_pos h2b]
  apply (div_lt_div_right (dN_pos hN)).mpr
  exact_mod_cast hab

lemma sum_range_getD_eq_sum (x : List ℂ) :
    ∑ n ∈ Finset.range x.length, x.getD n 0 = x.sum := by
  induction x with
  | nil => simp
  | cons a t ih =>
    rw [List.length_cons, Finset.sum_range_succ']
    simp only [List.getD_cons_succ, List.getD_cons_zero]
    rw [ih, List.sum_cons, add_comm]

/-- The zero-frequency DFT bin is the plain sum of the samples. -/
lemma dft_zero (x : List ℂ) : dft x 0 = x.sum := by
  unfold dft
  have hterm : ∀ n ∈ Finset.range x.length,
      x.getD n 0 * Complex.exp (-(2 * Real.pi * Complex.I) * (0 : ℕ) * n / x.length) =
        x.getD n 0 := by
    intro n _
    simp
  rw [Finset.sum_congr rfl hterm, sum_range_getD_eq_sum]

lemma np_fft_getD_zero (x : List ℂ) (h : 0 < x.length) :
    (np_fft x).getD 0 0 = x.sum := by
  unfold np_fft
  rw [getD_map_range (dft x) _ h]
  exact dft_zero x

/-! ### Claims C4 and C10 -/

/-- Claim C4 (confirmed): for even `N ≥ 2`, the spectrum view recomputes
the frequency axis from the actual timestep count: it has length `N/2`,
starts at frequency 0 and is strictly increasing, and each channel's
power at the zero-frequency bin is the squared magnitude of the sum of
that channel's samples. -/
theorem fft_load_even_axis_dc (N : ℕ) (S : List (List (List ℕ)))
    (T : List (List ℕ)) (hN : 2 ≤ N) (hNe : Even N)
    (hS : Shape3 S 4 128 N) (hT : Shape2 T 2 N) :
    (FFTView.load_data T S).1.length = N / 2 ∧
    (FFTView.load_data T S).1.getD 0 0 = 0 ∧
    (FFTView.load_data T S).1.Pairwise (· < ·) ∧
    (FFTView.load_data T S).2.length = 128 ∧
    ∀ c, c < 128 →
      ((FFTView.load_data T S).2.getD c []).getD 0 0 =
        Complex.abs ((((S.getD 0 []).getD c []).map (fun v : ℕ => (v : ℂ))).sum) ^ 2 := by
  have hsub0mem : S.getD 0 [] ∈ S := getD_mem [] (by rw [hS.1]; omega)
  have hsub0 := hS.2 _ hsub0mem
  have hch : ∀ c, c < 128 → ((S.getD 0 []).getD c []).length = N := by
    intro c hc
    exact hsub0.2 _ (getD_mem [] (by rw [hsub0.1]; exact hc))
  have hlen0 : ((S.getD 0 []).getD 0 []).length = N := hch 0 (by omega)
  subst hlen0
  obtain ⟨m, hm⟩ := hNe
  have h1 : (FFTView.load_data T S).1 =
      (fft_freq_idx (((S.getD 0 []).getD 0 []).length)).map
        (np_fftfreq (((S.getD 0 []).getD 0 []).length)) := rfl
  have h2 : (FFTView.load_data T S).2 =
      (List.range 128).map (fun i =>
        (fft_freq_idx (((S.getD 0 []).getD 0 []).length)).map
          (fun k : Fin (((S.getD 0 []).getD 0 []).length) =>
            Complex.abs ((np_fft (((S.getD 0 []).getD i []).map
              (fun v : ℕ => (v : ℂ)))).getD (k : ℕ) 0) ^ 2)) := rfl
  refine ⟨?_, ?_, ?_, ?_, ?_⟩
  · rw [h1, freq_axis_length _ (by omega)]
    omega
  · rw [h1]
    exact freq_axis_head _ (by omega)
  · rw [h1]
    exact freq_axis_strict _ (by omega)
  · rw [h2]
    simp
  · intro c hc
    rw [h2, getD_map_range _ _ hc]
    have hLpos : 0 < (fft_freq_idx (((S.getD 0 []).getD 0 []).length)).length := by
      rw [fft_freq_idx_eq _ (by omega), List.length_take, List.length_finRange]
      omega
    rw [getD_map _ _ 0 ⟨0, by omega⟩ hLpos,
      fft_freq_idx_head_val _ (by omega) ⟨0, by omega⟩]
    have hcc := hch c hc
    rw [np_fft_getD_zero _ (by rw [List.length_map, hcc]; omega)]

set_option maxRecDepth 40000 in
/-- Witness for C4 at `N = 2`. -/
theorem fft_load_even_axis_dc_witness :
    Even 2 ∧ Shape3 histSamples2 4 128 2 ∧
    (FFTView.load_data histTimes2 histSamples2).1.length = 2 / 2 ∧
    (FFTView.load_data histTimes2 histSamples2).1.getD 0 0 = 0 :=
  ⟨by decide, by decide,
   (fft_load_even_axis_dc 2 histSamples2 histTimes2 (by omega) (by decide)
     (by decide) (by decide)).1,
   (fft_load_even_axis_dc 2 histSamples2 histTimes2 (by omega) (by decide)
     (by decide) (by decide)).2.1⟩

/-- Claim C10 (confirmed): for odd `N ≥ 1`, the spectrum view's frequency
axis has length `(N+1)/2` (one more than the even-`N` formula `N/2`),
still starts at frequency 0, and the per-channel power matrix has 128
rows of length `(N+1)/2`. -/
theorem fft_load_odd_axis (N : ℕ) (S : List (List (List ℕ)))
    (T : List (List ℕ)) (hN : 1 ≤ N) (hNo : Odd N)
    (hS : Shape3 S 4 128 N) (hT : Shape2 T 2 N) :
    (FFTView.load_data T S).1.length = (N + 1) / 2 ∧
    (FFTView.load_data T S).1.getD 0 0 = 0 ∧
    (FFTView.load_data T S).2.length = 128 ∧
    ∀ c, c < 128 →
      ((FFTView.load_data T S).2.getD c []).length = (N + 1) / 2 := by
  have hsub0mem : S.getD 0 [] ∈ S := getD_mem [] (by rw [hS.1]; omega)
  have hsub0 := hS.2 _ hsub0mem
  have hch : ∀ c, c < 128 → ((S.getD 0 []).getD c []).length = N := by
    intro c hc
    exact hsub0.2 _ (getD_mem [] (by rw [hsub0.1]; exact hc))
  have hlen0 : ((S.getD 0 []).getD 0 []).length = N := hch 0 (by omega)
  subst hlen0
  obtain ⟨m, hm⟩ := hNo
  have h1 : (FFTView.load_data T S).1 =
      (fft_freq_idx (((S.getD 0 []).getD 0 []).length)).map
        (np_fftfreq (((S.getD 0 []).getD 0 []).length)) := rfl
  have h2 : (FFTView.load_data T S).2 =
      (List.range 128).map (fun i =>
        (fft_freq_idx (((S.getD 0 []).getD 0 []).length)).map
          (fun k : Fin (((S.getD 0 []).getD 0 []).length) =>
            Complex.abs ((np_fft (((S.getD 0 []).getD i []).map
              (fun v : ℕ => (v : ℂ)))).getD (k : ℕ) 0) ^ 2)) := rfl
  refine ⟨?_, ?_, ?_, ?_⟩
  · rw [h1, freq_axis_length _ (by omega)]
    omega
  · rw [h1]
    exact freq_axis_head _ (by omega)
  · rw [h2]
    simp
  · intro c hc
    rw [h2, getD_map_range _ _ hc, List.length_map,
      fft_freq_idx_eq _ (by omega), List.length_take, List.length_finRange]
    omega

set_option maxRecDepth 40000 in
/-- Witness for C10 at `N = 1`. -/
theorem fft_load_odd_axis_witness :
    Odd 1 ∧ Shape3 mrSamples 4 128 1 ∧
    (FFTView.load_data mrTimes mrSamples).1.length = (1 + 1) / 2 ∧
    (FFTView.load_data mrTimes mrSamples).1.getD 0 0 = 0 :=
  ⟨by decide, by decide,
   (fft_load_odd_axis 1 mrSamples mrTimes (by omega) (by decide)
     (by decide) (by decide)).1,
   (fft_load_odd_axis 1 mrSamples mrTimes (by omega) (by decide)
     (by decide) (by decide)).2.1⟩

/-! ### Claim C3 -/

/-- Claim C3 (confirmed): on a `(4,128,N)` samples array with `N ≥ 1` and
a `(2,N)` timestamps array, the Mean/RMS view computes 128 means and 128
standard deviations over the timestep axis of sub-unit 0: the mean is the
arithmetic mean, the rms the population (`ddof = 0`) standard deviation,
and a constant channel yields `rms = 0` and `mean =` that constant. -/
theorem meanrms_load_mean_std (N : ℕ) (S : List (List (List ℕ)))
    (T : List (List ℕ)) (hN : 1 ≤ N) (hS : Shape3 S 4 128 N) (hT : Shape2 T 2 N) :
    (MeanRMSView.load_data T S).1.length = 128 ∧
    (MeanRMSView.load_data T S).2.length = 128 ∧
    (∀ c, c < 128 →
      (MeanRMSView.load_data T S).1.getD c 0 =
        (((S.getD 0 []).getD c []).sum : ℚ) / N ∧
      (MeanRMSView.load_data T S).2.getD c 0 =
        Real.sqrt (((((S.getD 0 []).getD c []).map
          (fun x : ℕ => ((x : ℚ) - (((S.getD 0 []).getD c []).sum : ℚ) / N) ^ 2)).sum / N : ℚ))) ∧
    (∀ c, c < 128 → ∀ k : ℕ, (∀ x ∈ (S.getD 0 []).getD c [], x = k) →
      (MeanRMSView.load_data T S).2.getD c 0 = 0 ∧
      (MeanRMSView.load_data T S).1.getD c 0 = (k : ℚ)) := by
  have hsub0mem : S.getD 0 [] ∈ S := getD_mem [] (by rw [hS.1]; omega)
  have hsub0 := hS.2 (S.getD 0 []) hsub0mem
  have hlen1 : (MeanRMSView.load_data T S).1 = (S.getD 0 []).map np_mean := rfl
  have hlen2 : (MeanRMSView.load_data T S).2 = (S.getD 0 []).map np_std := rfl
  have hchfacts : ∀ c, c < 128 →
      ((S.getD 0 []).getD c []).length = N ∧
      (S.getD 0 []).getD c [] ∈ S.getD 0 [] := by
    intro c hc
    have hm : (S.getD 0 []).getD c [] ∈ S.getD 0 [] :=
      getD_mem [] (by rw [hsub0.1]; exact hc)
    exact ⟨hsub0.2 _ hm, hm⟩
  have hNQ : (N : ℚ) ≠ 0 := Nat.cast_ne_zero.mpr (by omega)
  refine ⟨by rw [hlen1, List.length_map, hsub0.1],
    by rw [hlen2, List.length_map, hsub0.1], ?_, ?_⟩
  · intro c hc
    obtain ⟨hchlen, _⟩ := hchfacts c hc
    rw [hlen1, hlen2, getD_map np_mean _ _ [] (by rw [hsub0.1]; exact hc),
      getD_map np_std _ _ [] (by rw [hsub0.1]; exact hc)]
    constructor
    · unfold np_mean
      rw [hchlen]
    · unfold np_std np_var np_mean
      rw [hchlen]
  · intro c hc k hk
    obtain ⟨hchlen, _⟩ := hchfacts c hc
    have hch : (S.getD 0 []).getD c [] = List.replicate N k :=
      List.eq_replicate_iff.mpr ⟨hchlen, hk⟩
    have hmeanr : np_mean (List.replicate N k) = (k : ℚ) := by
      unfold np_mean
      rw [List.sum_replicate, List.length_replicate, smul_eq_mul]
      push_cast
      rw [mul_comm, mul_div_assoc, div_self hNQ, mul_one]
    have hvar : np_var ((S.getD 0 []).getD c []) = 0 := by
      rw [hch]
      unfold np_var
      rw [hmeanr, List.length_replicate]
      have hm0 : (List.replicate N k).map (fun x : ℕ => ((x : ℚ) - (k : ℚ)) ^ 2) =
          List.replicate N 0 := by
        rw [List.map_replicate]
        simp
      rw [hm0, List.sum_replicate, smul_zero, zero_div]
    have hmean : np_mean ((S.getD 0 []).getD c []) = (k : ℚ) := by
      rw [hch]
      exact hmeanr
    constructor
    · rw [hlen2, getD_map np_std _ _ [] (by rw [hsub0.1]; exact hc)]
      unfold np_std
      rw [hvar]
      simp [Real.sqrt_zero]
    · rw [hlen1, getD_map np_mean _ _ [] (by rw [hsub0.1]; exact hc)]
      exact hmean

set_option maxRecDepth 40000 in
/-- Witness for C3 at a concrete constant-valued array. -/
theorem meanrms_load_mean_std_witness :
    Shape3 mrSamples 4 128 1 ∧
    (MeanRMSView.load_data mrTimes mrSamples).1.length = 128 ∧
    (MeanRMSView.load_data mrTimes mrSamples).2.getD 0 0 = 0 ∧
    (MeanRMSView.load_data mrTimes mrSamples).1.getD 0 0 = (7 : ℚ) :=
  ⟨by decide,
   (meanrms_load_mean_std 1 mrSamples mrTimes (by omega) (by decide) (by decide)).1,
   ((meanrms_load_mean_std 1 mrSamples mrTimes (by omega) (by decide) (by decide)).2.2.2
     0 (by omega) 7 (by decide)).1,
   ((meanrms_load_mean_std 1 mrSamples mrTimes (by omega) (by decide) (by decide)).2.2.2
     0 (by omega) 7 (by decide)).2⟩

/-! ### Claim C7 -/

/-- Claim C7 (confirmed): if the samples byte payload length is not
`2*(4*128*N)` or the timestamps byte payload length is not `8*(2*N)`,
the cycle fails at the decode step: no view is loaded, no redraw runs,
and every view's derived state is unchanged. -/
theorem acquire_data_decode_failure_no_update (rep : Reply) (st : GuiState)
    (h : rep.deframed_samples.length ≠ 2 * (4 * 128 * rep.num_samples) ∨
         rep.deframed_timestamps.length ≠ 8 * (2 * rep.num_samples)) :
    (acquire_data rep st).counts = st.counts ∧
    (acquire_data rep st).mean = st.mean ∧
    (acquire_data rep st).rms = st.rms ∧
    (acquire_data rep st).freq = st.freq ∧
    (acquire_data rep st).fft = st.fft ∧
    (acquire_data rep st).redraws = st.redraws := by
  rcases hS : decode_samples rep with _ | S
  · simp [acquire_data, hS]
  · rcases hT : decode_timestamps rep with _ | T
    · simp [acquire_data, hS, hT]
    · have l1 := decode_samples_length hS
      have l2 := decode_timestamps_length hT
      rcases h with h | h
      · exact absurd l1 h
      · exact absurd l2 h

/-- A reply whose samples payload (3 bytes) cannot hold `4*128*1` 16-bit
words. -/
def replyBadLength : Reply :=
  { success := true, num_samples := 1
    deframed_samples := List.replicate 3 0
    deframed_timestamps := List.replicate 16 0 }

/-- Witness for C7 at a concrete truncated reply. -/
theorem acquire_data_decode_failure_no_update_witness :
    replyBadLength.deframed_samples.length ≠ 2 * (4 * 128 * replyBadLength.num_samples) ∧
    (acquire_data replyBadLength init_state).counts = init_state.counts ∧
    (acquire_data replyBadLength init_state).redraws = init_state.redraws :=
  ⟨by decide,
   (acquire_data_decode_failure_no_update replyBadLength init_state (Or.inl (by decide))).1,
   (acquire_data_decode_failure_no_update replyBadLength init_state
     (Or.inl (by decide))).2.2.2.2.2⟩

/-! ### Claim C1 -/

/-- In a successfully decoded sample array, channel 0 of sub-unit 0 has
exactly the reported number of timesteps — this length is the argument
the spectrum view hands to `np.fft.fftfreq`. -/
lemma decode_samples_row00 {rep : Reply} {S : List (List (List ℕ))}
    (h : decode_samples rep = some S) :
    ((S.getD 0 []).getD 0 []).length = rep.num_samples := by
  unfold decode_samples np_frombuffer_u16 np_reshape_4_128 at h
  by_cases h2 : rep.deframed_samples.length % 2 = 0
  · rw [if_pos h2, Option.some_bind'] at h
    by_cases h3 : (chunk16 rep.deframed_samples).length = 4 * 128 * rep.num_samples
    · rw [if_pos h3] at h
      have h4 := Option.some.inj h
      subst h4
      rw [getD_map_range _ _ (show (0 : ℕ) < 4 by omega),
        getD_map_range _ _ (show (0 : ℕ) < 128 by omega),
        List.length_take, List.length_drop]
      omega
    · rw [if_neg h3] at h
      exact Option.noConfusion h
  · rw [if_neg h2] at h
    exact Option.noConfusion h

/-- A reply with `success = false` but well-formed payloads for one
timestep (1024 sample bytes, 16 timestamp bytes). -/
def replyFailure : Reply :=
  { success := false, num_samples := 1
    deframed_samples := List.replicate 1024 0
    deframed_timestamps := List.replicate 16 0 }

set_option maxRecDepth 100000 in
/-- Counterexample to C1 as stated: on a reply with `success = false`,
`acquire_data` does not abort — it stores the decoded sample array
(previously absent) and triggers a redraw with the new data. -/
theorem acquire_data_failed_reply_mutates :
    replyFailure.success = false ∧
    (acquire_data replyFailure init_state).redraws = init_state.redraws + 1 ∧
    (acquire_data replyFailure init_state).samples.isSome = true ∧
    init_state.samples.isSome = false ∧
    (acquire_data replyFailure init_state).samples ≠ init_state.samples := by
  refine ⟨rfl, rfl, rfl, rfl, fun h => Option.noConfusion h⟩

/-- Claim C1 (corrected): `acquire_data` never reads the reply's success
flag (it is only printed): the cycle proceeds identically whether
`success` is true or false.  For a reply with `success = false` whose
payloads decode and which reports at least one sample, the stored arrays
are overwritten, every view is reloaded, and a redraw with the new data
is triggered.  For a decoding reply reporting zero samples, the stored
arrays and the histogram and mean/RMS views are still overwritten before
the spectrum view's frequency computation raises, which leaves
`freq`/`fft` unchanged and skips the redraw. -/
theorem acquire_data_ignores_success_flag (rep : Reply) (st : GuiState)
    (hs : rep.success = false) :
    acquire_data rep st = acquire_data { rep with success := true } st ∧
    (rep.num_samples ≠ 0 →
      ∀ S T, decode_samples rep = some S → decode_timestamps rep = some T →
        acquire_data rep st =
          { st with
            samples := some S
            timestamps := some T
            counts := Hist2DView.load_data T S
            mean := (MeanRMSView.load_data T S).1
            rms := (MeanRMSView.load_data T S).2
            freq := (FFTView.load_data T S).1
            fft := (FFTView.load_data T S).2
            redraws := st.redraws + 1 }) ∧
    (rep.num_samples = 0 →
      ∀ S T, decode_samples rep = some S → decode_timestamps rep = some T →
        acquire_data rep st =
          { st with
            samples := some S
            timestamps := some T
            counts := Hist2DView.load_data T S
            mean := (MeanRMSView.load_data T S).1
            rms := (MeanRMSView.load_data T S).2 }) := by
  refine ⟨?_, ?_, ?_⟩
  · cases rep
    rfl
  · intro hnum S T hS hT
    have hrow : ¬((S.getD 0 []).getD 0 []).length = 0 := by
      rw [decode_samples_row00 hS]
      exact hnum
    simp only [acquire_data, hS, hT]
    rw [if_neg hrow]
  · intro hnum S T hS hT
    have hrow : ((S.getD 0 []).getD 0 []).length = 0 := by
      rw [decode_samples_row00 hS]
      exact hnum
    simp only [acquire_data, hS, hT]
    rw [if_pos hrow]

set_option maxRecDepth 100000 in
/-- Witness for C1's amended claim at the concrete failed reply. -/
theorem acquire_data_ignores_success_flag_witness :
    acquire_data replyFailure init_state =
      acquire_data { replyFailure with success := true } init_state ∧
    (acquire_data replyFailure init_state).redraws = init_state.redraws + 1 := by
  refine ⟨(acquire_data_ignores_success_flag replyFailure init_state rfl).1, ?_⟩
  obtain ⟨S, hS⟩ : ∃ S, decode_samples replyFailure = some S := ⟨_, rfl⟩
  obtain ⟨T, hT⟩ : ∃ T, decode_timestamps replyFailure = some T := ⟨_, rfl⟩
  have h := (acquire_data_ignores_success_flag replyFailure init_state rfl).2.1
    (by decide) S T hS hT
  rw [h]

/-! ### Claim C6 -/

/-- Claim C6 (confirmed): the continuous-mode state machine starts in
`Idle`; the Continuous action toggles `Idle` to `ContinuousPolling`
(recurring 500 ms timer started) and `ContinuousPolling` back to `Idle`
(timer cancelled), the button label reflecting the state; and
Idle → start → stop returns to `Idle` with the timer inactive. -/
theorem continuous_mode_state_machine :
    Idle continuousInit ∧
    (∀ s, Idle s → ContinuousPolling (toggle_continuous s)) ∧
    (∀ s, ContinuousPolling s → Idle (toggle_continuous s)) ∧
    Idle (toggle_continuous (toggle_continuous continuousInit)) ∧
    (toggle_continuous (toggle_continuous continuousInit)).timerActive = false := by
  refine ⟨by decide, ?_, ?_, by decide, by decide⟩
  · intro s hs
    simp only [toggle_continuous, hs.1, if_pos]
    exact ⟨rfl, rfl, rfl⟩
  · intro s hs
    have : s.label ≠ "Continuous" := by rw [hs.1]; decide
    simp only [toggle_continuous, if_neg this]
    exact ⟨rfl, rfl⟩

/-- Witness for C6: applying the theorem at the initial state shows one
Continuous press reaches `ContinuousPolling`. -/
theorem continuous_mode_state_machine_witness :
    ContinuousPolling (toggle_continuous continuousInit) :=
  continuous_mode_state_machine.2.1 continuousInit ⟨rfl, rfl⟩

/-! ### Claim C8 -/

/-- Claim C8 (confirmed): from a well-formed configuration object
(`cold` boolean, 4 enabled flags, 4 fully populated tuning records), the
Configure action sends exactly one `ConfigureWIB` whose `cold` equals the
input and whose 4 per-sub-unit records copy `enabled_fembs[i]` and every
tuning field of `femb_configs[i]`. -/
theorem configure_wib_builds_request (cfg : RawConfig) (b : Bool)
    (ens : List Bool) (fcs : List RawFembConfig)
    (hb : cfg.cold = some b) (hens : cfg.enabled_fembs = some ens)
    (hlen : ens.length = 4) (hfcs : cfg.femb_configs = some fcs)
    (hflen : fcs.length = 4) (hcomp : ∀ fc ∈ fcs, fc.Complete) :
    ∃ req, configure_wib (some cfg) = ([req], CfgOutcome.okSent) ∧
      req.cold = b ∧ req.fembs.length = 4 ∧
      ∀ i, i < 4 →
        (req.fembs.getD i default).enabled = ens.getD i false ∧
        (req.fembs.getD i default).test_cap = (fcs.getD i default).test_cap.getD 0 ∧
        (req.fembs.getD i default).gain = (fcs.getD i default).gain.getD 0 ∧
        (req.fembs.getD i default).peak_time = (fcs.getD i default).peak_time.getD 0 ∧
        (req.fembs.getD i default).baseline = (fcs.getD i default).baseline.getD 0 ∧
        (req.fembs.getD i default).pulse_dac = (fcs.getD i default).pulse_dac.getD 0 ∧
        (req.fembs.getD i default).leak = (fcs.getD i default).leak.getD 0 ∧
        (req.fembs.getD i default).leak_10x = (fcs.getD i default).leak_10x.getD 0 ∧
        (req.fembs.getD i default).ac_couple = (fcs.getD i default).ac_couple.getD 0 ∧
        (req.fembs.getD i default).buffer = (fcs.getD i default).buffer.getD 0 ∧
        (req.fembs.getD i default).strobe_skip = (fcs.getD i default).strobe_skip.getD 0 ∧
        (req.fembs.getD i default).strobe_delay = (fcs.getD i default).strobe_delay.getD 0 ∧
        (req.fembs.getD i default).strobe_length = (fcs.getD i default).strobe_length.getD 0 := by
  obtain ⟨a0, a1, a2, a3, rfl⟩ := length_eq_four hlen
  obtain ⟨g0, g1, g2, g3, rfl⟩ := length_eq_four hflen
  have c0 : g0.Complete := hcomp g0 (by simp)
  have c1 : g1.Complete := hcomp g1 (by simp)
  have c2 : g2.Complete := hcomp g2 (by simp)
  have c3 : g3.Complete := hcomp g3 (by simp)
  have b0 := build_femb_eq cfg 0 [a0, a1, a2, a3] [g0, g1, g2, g3] a0 g0
    hens (by simp) hfcs (by simp) c0
  have b1 := build_femb_eq cfg 1 [a0, a1, a2, a3] [g0, g1, g2, g3] a1 g1
    hens (by simp) hfcs (by simp) c1
  have b2 := build_femb_eq cfg 2 [a0, a1, a2, a3] [g0, g1, g2, g3] a2 g2
    hens (by simp) hfcs (by simp) c2
  have b3 := build_femb_eq cfg 3 [a0, a1, a2, a3] [g0, g1, g2, g3] a3 g3
    hens (by simp) hfcs (by simp) c3
  refine ⟨⟨b, [femb_of a0 g0, femb_of a1 g1, femb_of a2 g2, femb_of a3 g3]⟩,
    ?_, rfl, rfl, ?_⟩
  · unfold configure_wib build_req
    simp only [hb, b0, b1, b2, b3, Option.some_bind']
  · intro i hi
    interval_cases i <;>
      exact ⟨rfl, rfl, rfl, rfl, rfl, rfl, rfl, rfl, rfl, rfl, rfl, rfl, rfl⟩

/-- A fully populated tuning record, used to instantiate the
configuration claims. -/
def sampleRawFemb : RawFembConfig :=
  { test_cap := some 1, gain := some 2, peak_time := some 3, baseline := some 0
    pulse_dac := some 4, leak := some 0, leak_10x := some 0, ac_couple := some 0
    buffer := some 1, strobe_skip := some 255, strobe_delay := some 255
    strobe_length := some 255 }

/-- A well-formed parsed configuration object. -/
def sampleRawConfig : RawConfig :=
  { cold := some false
    enabled_fembs := some [true, false, false, false]
    femb_configs := some [sampleRawFemb, sampleRawFemb, sampleRawFemb, sampleRawFemb] }

/-- Witness for C8: the theorem applied to a concrete well-formed
configuration object. -/
theorem configure_wib_builds_request_witness :
    ∃ req, configure_wib (some sampleRawConfig) = ([req], CfgOutcome.okSent) ∧
      req.cold = false ∧ req.fembs.length = 4 ∧
      ∀ i, i < 4 →
        (req.fembs.getD i default).enabled = [true, false, false, false].getD i false ∧
        (req.fembs.getD i default).test_cap =
          ([sampleRawFemb, sampleRawFemb, sampleRawFemb, sampleRawFemb].getD i default).test_cap.getD 0 ∧
        (req.fembs.getD i default).gain =
          ([sampleRawFemb, sampleRawFemb, sampleRawFemb, sampleRawFemb].getD i default).gain.getD 0 ∧
        (req.fembs.getD i default).peak_time =
          ([sampleRawFemb, sampleRawFemb, sampleRawFemb, sampleRawFemb].getD i default).peak_time.getD 0 ∧
        (req.fembs.getD i default).baseline =
          ([sampleRawFemb, sampleRawFemb, sampleRawFemb, sampleRawFemb].getD i default).baseline.getD 0 ∧
        (req.fembs.getD i default).pulse_dac =
          ([sampleRawFemb, sampleRawFemb, sampleRawFemb, sampleRawFemb].getD i default).pulse_dac.getD 0 ∧
        (req.fembs.getD i default).leak =
          ([sampleRawFemb, sampleRawFemb, sampleRawFemb, sampleRawFemb].getD i default).leak.getD 0 ∧
        (req.fembs.getD i default).leak_10x =
          ([sampleRawFemb, sampleRawFemb, sampleRawFemb, sampleRawFemb].getD i default).leak_10x.getD 0 ∧
        (req.fembs.getD i default).ac_couple =
          ([sampleRawFemb, sampleRawFemb, sampleRawFemb, sampleRawFemb].getD i default).ac_couple.getD 0 ∧
        (req.fembs.getD i default).buffer =
          ([sampleRawFemb, sampleRawFemb, sampleRawFemb, sampleRawFemb].getD i default).buffer.getD 0 ∧
        (req.fembs.getD i default).strobe_skip =
          ([sampleRawFemb, sampleRawFemb, sampleRawFemb, sampleRawFemb].getD i default).strobe_skip.getD 0 ∧
        (req.fembs.getD i default).strobe_delay =
          ([sampleRawFemb, sampleRawFemb, sampleRawFemb, sampleRawFemb].getD i default).strobe_delay.getD 0 ∧
        (req.fembs.getD i default).strobe_length =
          ([sampleRawFemb, sampleRawFemb, sampleRawFemb, sampleRawFemb].getD i default).strobe_length.getD 0 :=
  configure_wib_builds_request sampleRawConfig false
    [true, false, false, false]
    [sampleRawFemb, sampleRawFemb, sampleRawFemb, sampleRawFemb]
    rfl rfl (by decide) rfl (by decide) (by decide)

/-! ### Claim C9 -/

/-- A configuration object whose file parsed but which lacks the required
`cold` key. -/
def configMissingCold : RawConfig :=
  { cold := none
    enabled_fembs := some [true, false, false, false]
    femb_configs := some [sampleRawFemb, sampleRawFemb, sampleRawFemb, sampleRawFemb] }

/-- Counterexample to C9 as stated: for a configuration file lacking a
required field, `configure_wib` raises a key-lookup error outside the
`try`/`except`, so that failure is not caught at the action boundary
(contrary to the claim that every configuration-file failure is caught
and reported there).  No command is sent, but the outcome is an uncaught
exception, not the handled abort. -/
theorem configure_wib_missing_field_uncaught :
    (configure_wib (some configMissingCold)).2 = CfgOutcome.crashedUncaught ∧
    (configure_wib (some configMissingCold)).1 = [] ∧
    CfgOutcome.crashedUncaught ≠ CfgOutcome.abortedCaught := by
  refine ⟨rfl, rfl, by decide⟩

/-- Claim C9 (corrected): a missing or unparsable configuration file is
caught by the handler, reported, and aborts the action with nothing sent;
a configuration file lacking required fields also aborts with nothing
sent, but the key-lookup error escapes the action's handler instead of
being caught at the action boundary. -/
theorem configure_wib_failure_handling :
    configure_wib none = ([], CfgOutcome.abortedCaught) ∧
    ∀ cfg, build_req cfg = none →
      configure_wib (some cfg) = ([], CfgOutcome.crashedUncaught) := by
  refine ⟨rfl, ?_⟩
  intro cfg h
  simp [configure_wib, h]

/-- Witness for C9's amended claim, at the concrete incomplete
configuration. -/
theorem configure_wib_failure_handling_witness :
    configure_wib (some configMissingCold) = ([], CfgOutcome.crashedUncaught) :=
  configure_wib_failure_handling.2 configMissingCold rfl

end Femb0
